import Mathlib

/-!
# Verification of the nestjs-langgraph-agent-template repository

Shallow embedding of the repository's domain entities (`Agent`, `Session`),
in-memory repositories, tool registry and multi-agent routing function,
with theorems settling the specification claims about them.

Modelling conventions:
* A JavaScript `Map<string, V>` is modelled as an insertion-ordered
  association list `List (String × V)` with unique keys on all reachable
  states.  `Map.set` replaces the value in place when the key exists and
  appends otherwise; `Map.delete` removes every pair with the key (which on
  states with unique keys is exactly the one entry JS removes);
  `Map.values()` is the second projection in list order.
* JavaScript numbers occurring in configuration fields (`maxIterations`,
  `timeoutMs`, `temperature`, ...) are modelled as rationals `ℚ`: every
  comparison the code performs on them is exact, and the truthiness test
  `if (x)` on a number is `x ≠ 0`.  Counts and indices (`skip`, `take`,
  iteration counters) are modelled as `Nat`.
* `Date` timestamps are modelled as `Nat` ticks passed in explicitly
  (`now`); generated UUIDs are passed in explicitly as strings.
* A fallible constructor or method (`throw` in TypeScript) is modelled
  with `Except`, the error carrying the thrown message.
-/

set_option maxHeartbeats 1000000

namespace AgentTemplate

/-- Lookup in a JS `Map` modelled as an association list: first pair with
the key (keys are unique on reachable states). -/
def mapLookup {α : Type} (m : List (String × α)) (k : String) : Option α :=
  match m with
  | [] => none
  | (k', v) :: t => if k' = k then some v else mapLookup t k

/-- JS `Map.has`. -/
def mapHas {α : Type} (m : List (String × α)) (k : String) : Bool :=
  match m with
  | [] => false
  | (k', _) :: t => if k' = k then true else mapHas t k

/-- JS `Map.set`: replace in place when the key is present (keys are
unique, so replacing the first occurrence is exact), append otherwise
(preserving the insertion order JS `Map` iteration uses). -/
def mapSet {α : Type} (m : List (String × α)) (k : String) (v : α) :
    List (String × α) :=
  match m with
  | [] => [(k, v)]
  | (k', v') :: t => if k' = k then (k, v) :: t else (k', v') :: mapSet t k v

/-- JS `Map.delete` (ignoring the returned boolean): on maps with unique
keys, removing all pairs with the key removes exactly the one JS entry. -/
def mapDelete {α : Type} (m : List (String × α)) (k : String) :
    List (String × α) :=
  m.filter (fun p => p.1 ≠ k)

/-- JS `x || d` on an optional number modelled as `Nat`: the default `d` is
used when the value is absent (`undefined`) or falsy (`0`). -/
def jsOrNat (x : Option Nat) (d : Nat) : Nat :=
  match x with
  | none => d
  | some v => if v = 0 then d else v

/-- JS `Array.prototype.slice(start, stop)` for non-negative in-range
style arguments, as used by the repositories' pagination. -/
def jsSlice {α : Type} (l : List α) (start stop : Nat) : List α :=
  (l.drop start).take (stop - start)

/-- Containment test for a `List Char` infix, written out so it computes. -/
def charsContain (hay needle : List Char) : Bool :=
  match hay with
  | [] => needle.isEmpty
  | _ :: t => needle.isPrefixOf hay || charsContain t needle

/-- JS `String.prototype.includes`. -/
def strIncludes (hay needle : String) : Bool :=
  charsContain hay.data needle.data

/-- JS `String.prototype.toLowerCase` (ASCII, which covers the worker
names and message content the routing code compares). -/
def strLower (s : String) : String :=
  String.mk (s.data.map Char.toLower)

/-- JS `String.prototype.trim`: drop leading and trailing whitespace
(written over the character list so that it computes). -/
def strTrim (s : String) : String :=
  String.mk
    (((s.data.dropWhile Char.isWhitespace).reverse.dropWhile
      Char.isWhitespace).reverse)

/-! ## Domain enums (`agent.types.ts`) -/

/-- TS `AgentTypeEnum`. -/
inductive AgentTypeEnum where
  | general
  | specialized
  | multiAgent
  deriving DecidableEq, Repr

/-- TS `LLMProviderEnum`. -/
inductive LLMProviderEnum where
  | openai
  | anthropic
  | azure
  deriving DecidableEq, Repr

/-- TS `SessionStatusEnum`. -/
inductive SessionStatusEnum where
  | active
  | paused
  | completed
  | failed
  | interrupted
  deriving DecidableEq, Repr

/-- TS `LLMModelConfig`.  Optional TS fields are `Option`; a missing or empty
`modelName` string is falsy in the code's checks, so absence is modelled
as `""`. -/
structure LLMModelConfig where
  provider : LLMProviderEnum
  modelName : String
  temperature : Option ℚ := none
  maxTokens : Option ℚ := none
  topP : Option ℚ := none
  deriving DecidableEq, Repr

/-- TS `AgentConfig`.  `type` and `llmConfig` are required by the TS
interface but the validation code guards against their absence (tests pass
`undefined` through casts), so they are modelled as `Option`.  The
free-form `metadata` record is not used by any verified operation and is
omitted. -/
structure AgentConfig where
  type : Option AgentTypeEnum
  name : String
  description : Option String := none
  llmConfig : Option LLMModelConfig
  maxIterations : Option ℚ := none
  timeoutMs : Option ℚ := none
  systemPrompt : Option String := none
  enableMemory : Option Bool := none
  enableStreaming : Option Bool := none
  tools : Option (List String) := none
  deriving DecidableEq, Repr

/-! ## Agent entity (`agent.entity.ts`) -/

/-- The `Agent` domain entity.  `createdAt`/`updatedAt` are tick values. -/
structure Agent where
  id : String
  config : AgentConfig
  isActive : Bool
  createdAt : Nat
  updatedAt : Nat
  deriving DecidableEq, Repr

/-- TS `Agent.validateConfig`, clause for clause.  `!config.name` is
`name = ""`; the `maxIterations` guard keeps the source's three conjuncts
(truthy ∧ > 0 ∧ < 1); the `timeoutMs` guard is truthy ∧ ≤ 0. -/
def Agent.validateConfig (config : AgentConfig) : Except String Unit :=
  if config.name = "" ∨ (strTrim config.name).length = 0 then
    .error "Agent name cannot be empty"
  else if config.type = none then
    .error "Agent type is required"
  else if config.llmConfig = none ∨
      (config.llmConfig.map LLMModelConfig.modelName).getD "" = "" then
    .error "LLM configuration with model name is required"
  else if (match config.maxIterations with
      | none => false
      | some mi => decide (mi ≠ 0 ∧ 0 < mi ∧ mi < 1)) then
    .error "Max iterations must be greater than 0"
  else if (match config.timeoutMs with
      | none => false
      | some tm => decide (tm ≠ 0 ∧ tm ≤ 0)) then
    .error "Timeout must be greater than 0"
  else
    .ok ()

/-- The `Agent` constructor.  The generated UUID and the current time are
passed in explicitly (`id`, `now`); `isActive ?? true` is the caller's
`isActive` argument with default `true`. -/
def Agent.create (config : AgentConfig) (id : String)
    (isActive : Bool := true) (now : Nat := 0) : Except String Agent :=
  match Agent.validateConfig config with
  | .error e => .error e
  | .ok _ => .ok { id := id, config := config, isActive := isActive,
                   createdAt := now, updatedAt := now }

/-- TS `Partial<AgentConfig>` as passed to `updateConfig`: a present field
overrides the old value under object spread. -/
structure AgentConfigUpdate where
  type : Option AgentTypeEnum := none
  name : Option String := none
  description : Option String := none
  llmConfig : Option LLMModelConfig := none
  maxIterations : Option ℚ := none
  timeoutMs : Option ℚ := none
  systemPrompt : Option String := none
  enableMemory : Option Bool := none
  enableStreaming : Option Bool := none
  tools : Option (List String) := none
  deriving DecidableEq, Repr

/-- The object spread `{ ...this.config, ...newConfig }`. -/
def mergeConfig (c : AgentConfig) (p : AgentConfigUpdate) : AgentConfig :=
  { type := p.type <|> c.type
    name := p.name.getD c.name
    description := p.description <|> c.description
    llmConfig := p.llmConfig <|> c.llmConfig
    maxIterations := p.maxIterations <|> c.maxIterations
    timeoutMs := p.timeoutMs <|> c.timeoutMs
    systemPrompt := p.systemPrompt <|> c.systemPrompt
    enableMemory := p.enableMemory <|> c.enableMemory
    enableStreaming := p.enableStreaming <|> c.enableStreaming
    tools := p.tools <|> c.tools }

/-- TS `Agent.updateConfig`: merge, re-validate, then commit (throwing leaves
the entity untouched, returning gives the merged config). -/
def Agent.updateConfig (a : Agent) (newConfig : AgentConfigUpdate)
    (now : Nat) : Except String Agent :=
  match Agent.validateConfig (mergeConfig a.config newConfig) with
  | .error e => .error e
  | .ok _ => .ok { a with config := mergeConfig a.config newConfig,
                          updatedAt := now }

/-! ## Session entity (`session.entity.ts`) -/

/-- The `Session` domain entity.  Metadata is the free-form record, here a
string-keyed map of strings (the status operations only ever set
`failureReason` / `interruptReason`). -/
structure Session where
  sessionId : String
  agentId : String
  createdAt : Nat
  updatedAt : Nat
  expiresAt : Option Nat
  status : SessionStatusEnum
  metadata : List (String × String)
  deriving DecidableEq, Repr

/-- TS `Session.pause`: transitions only from `active`. -/
def Session.pause (s : Session) (now : Nat) : Session :=
  if s.status = .active then
    { s with status := .paused, updatedAt := now }
  else s

/-- TS `Session.resume`: transitions only from `paused`. -/
def Session.resume (s : Session) (now : Nat) : Session :=
  if s.status = .paused then
    { s with status := .active, updatedAt := now }
  else s

/-- TS `Session.complete`: transitions only from `active` or `paused`. -/
def Session.complete (s : Session) (now : Nat) : Session :=
  if s.status = .active ∨ s.status = .paused then
    { s with status := .completed, updatedAt := now }
  else s

/-- TS `Session.fail`: unconditional assignment; a truthy (non-empty) reason
is recorded in the metadata. -/
def Session.fail (s : Session) (reason : Option String) (now : Nat) :
    Session :=
  { s with status := .failed, updatedAt := now
           metadata :=
             match reason with
             | some r => if r = "" then s.metadata
                         else mapSet s.metadata "failureReason" r
             | none => s.metadata }

/-- TS `Session.interrupt`: unconditional assignment; a truthy reason is
recorded in the metadata. -/
def Session.interrupt (s : Session) (reason : Option String) (now : Nat) :
    Session :=
  { s with status := .interrupted, updatedAt := now
           metadata :=
             match reason with
             | some r => if r = "" then s.metadata
                         else mapSet s.metadata "interruptReason" r
             | none => s.metadata }

/-! ## Tool registry (`tool-registry.service.ts`) -/

/-- TS `ToolExecutionError`: carries the tool name and the failure reason
(the TS class formats them into a message with code `TOOL_EXECUTION_ERROR`
and HTTP status 400). -/
structure ToolExecutionError where
  toolName : String
  reason : String
  deriving DecidableEq, Repr

/-- TS `ToolDefinition`.  The untyped `any` tool input and output are
modelled as strings, and the `execute` function as a total function into
`Except` (error = the thrown message). -/
structure ToolDefinition where
  id : String
  name : String
  description : String
  schema : List (String × String)
  execute : String → Except String String

/-- An `LLMTool`: only its `name` is inspected by the registry code; the
`invoke` closure just wraps `ToolDefinition.execute` and is not needed by
any verified claim. -/
structure LLMTool where
  name : String
  deriving DecidableEq, Repr

/-- TS `ToolRegistryService` state: the id-keyed `tools` map and the
`llmTools` array. -/
structure ToolRegistryService where
  tools : List (String × ToolDefinition)
  llmTools : List LLMTool

/-- TS `ToolRegistryService.register`: `tools.set(toolDef.id, toolDef)`, then
push the LLM-compatible wrapper (named after the tool) onto `llmTools`. -/
def ToolRegistryService.register (r : ToolRegistryService)
    (toolDef : ToolDefinition) : ToolRegistryService :=
  { tools := mapSet r.tools toolDef.id toolDef
    llmTools := r.llmTools ++ [{ name := toolDef.name }] }

/-- TS `ToolRegistryService.getTool`: `tools.get(toolId) || null`. -/
def ToolRegistryService.getTool (r : ToolRegistryService)
    (toolId : String) : Option ToolDefinition :=
  mapLookup r.tools toolId

/-- TS `ToolRegistryService.unregister`, line for line: remember `has`,
delete from the map, then look the id up again (after the deletion) and
only filter `llmTools` when that lookup produced a definition. -/
def ToolRegistryService.unregister (r : ToolRegistryService)
    (toolId : String) : Bool × ToolRegistryService :=
  let existed := mapHas r.tools toolId
  if existed then
    let tools' := mapDelete r.tools toolId
    let toolDef := mapLookup tools' toolId
    let llmTools' :=
      match toolDef with
      | some td => r.llmTools.filter (fun t => t.name ≠ td.name)
      | none => r.llmTools
    (existed, { tools := tools', llmTools := llmTools' })
  else
    (existed, r)

/-- TS `ToolRegistryService.execute`: look the tool up by id, fail with
`ToolExecutionError(toolId, 'Tool not found')` when absent, otherwise run
the stored function and wrap a thrown error into
`ToolExecutionError(toolDef.name, message)`. -/
def ToolRegistryService.execute (r : ToolRegistryService)
    (toolId : String) (input : String) :
    Except ToolExecutionError String :=
  match r.getTool toolId with
  | none => .error { toolName := toolId, reason := "Tool not found" }
  | some toolDef =>
    match toolDef.execute input with
    | .ok v => .ok v
    | .error e => .error { toolName := toolDef.name, reason := e }

/-- TS `ToolRegistryService.getToolsAsLLMTools`: a copy of `llmTools`. -/
def ToolRegistryService.getToolsAsLLMTools (r : ToolRegistryService) :
    List LLMTool :=
  r.llmTools

/-! ## Pagination types (`common.types.ts`) -/

/-- TS `PageCursor`.  `skip` and `take` are the non-negative integer offsets
pagination uses; the `orderBy`/`order` fields are accepted but unused by
the in-memory repositories. -/
structure PageCursor where
  skip : Nat
  take : Nat
  orderBy : Option String := none
  order : Option String := none
  deriving DecidableEq, Repr

/-- TS `PaginatedResponse<T>`. -/
structure PaginatedResponse (α : Type) where
  data : List α
  total : Nat
  skip : Nat
  take : Nat
  deriving DecidableEq, Repr

/-! ## In-memory agent repository (`in-memory-agent.repository.ts`) -/

/-- TS `InMemoryAgentRepository` state: the `agents` map. -/
structure InMemoryAgentRepository where
  agents : List (String × Agent)
  deriving DecidableEq, Repr

/-- TS `InMemoryAgentRepository.findById`: `agents.get(id) || null`. -/
def InMemoryAgentRepository.findById (repo : InMemoryAgentRepository)
    (agentId : String) : Option Agent :=
  mapLookup repo.agents agentId

/-- TS `InMemoryAgentRepository.findByName`: first stored agent (in map
iteration order) whose config name equals the argument. -/
def InMemoryAgentRepository.findByName (repo : InMemoryAgentRepository)
    (name : String) : Option Agent :=
  (repo.agents.map Prod.snd).find? (fun a => a.config.name = name)

/-- TS `InMemoryAgentRepository.findAll`: `skip = cursor?.skip || 0`,
`take = cursor?.take || 10`, data = `agents.slice(skip, skip + take)`,
total = full stored count. -/
def InMemoryAgentRepository.findAll (repo : InMemoryAgentRepository)
    (cursor : Option PageCursor) : PaginatedResponse Agent :=
  let agents := repo.agents.map Prod.snd
  let skip := jsOrNat (cursor.map PageCursor.skip) 0
  let take := jsOrNat (cursor.map PageCursor.take) 10
  { data := jsSlice agents skip (skip + take)
    total := agents.length
    skip := skip
    take := take }

/-- TS `InMemoryAgentRepository.save`: `agents.set(agent.getId(), agent)`. -/
def InMemoryAgentRepository.save (repo : InMemoryAgentRepository)
    (agent : Agent) : InMemoryAgentRepository :=
  { agents := mapSet repo.agents agent.id agent }

/-- TS `InMemoryAgentRepository.delete`: `agents.delete(agentId)`. -/
def InMemoryAgentRepository.delete (repo : InMemoryAgentRepository)
    (agentId : String) : InMemoryAgentRepository :=
  { agents := mapDelete repo.agents agentId }

/-! ## In-memory session repository (`in-memory-session.repository.ts`) -/

/-- TS `InMemorySessionRepository` state: the `sessions` map. -/
structure InMemorySessionRepository where
  sessions : List (String × Session)
  deriving DecidableEq, Repr

/-- TS `InMemorySessionRepository.findByAgentId`: filter the stored sessions
by agent, then apply the same `skip || 0` / `take || 10` slicing, with
total = matching count. -/
def InMemorySessionRepository.findByAgentId
    (repo : InMemorySessionRepository) (agentId : String)
    (cursor : Option PageCursor) : PaginatedResponse Session :=
  let sessions := (repo.sessions.map Prod.snd).filter
    (fun s => s.agentId = agentId)
  let skip := jsOrNat (cursor.map PageCursor.skip) 0
  let take := jsOrNat (cursor.map PageCursor.take) 10
  { data := jsSlice sessions skip (skip + take)
    total := sessions.length
    skip := skip
    take := take }

/-- TS `InMemorySessionRepository.delete`: `sessions.delete(sessionId)`. -/
def InMemorySessionRepository.delete (repo : InMemorySessionRepository)
    (sessionId : String) : InMemorySessionRepository :=
  { sessions := mapDelete repo.sessions sessionId }

/-! ## CreateAgentUseCase (`create-agent.usecase.ts`) -/

/-- The domain error the use case throws: every rejection is an
`InvalidAgentConfigError` (constructor failures are caught and re-wrapped
into it). -/
inductive CreateAgentError where
  | invalidConfig (message : String)
  deriving DecidableEq, Repr

/-- TS `CreateAgentUseCase.validateConfig`, clause for clause (the
`typeof config !== 'object'` guard cannot fire on a typed value). -/
def createAgentValidateConfig (config : AgentConfig) :
    Except CreateAgentError Unit :=
  if config.name = "" ∨ (strTrim config.name).length = 0 then
    .error (.invalidConfig "Agent name is required")
  else if config.type = none then
    .error (.invalidConfig "Agent type is required")
  else if config.llmConfig = none then
    .error (.invalidConfig "LLM configuration is required")
  else if (config.llmConfig.map LLMModelConfig.modelName).getD "" = "" then
    .error (.invalidConfig "LLM model name is required")
  else
    .ok ()

/-- TS `CreateAgentUseCase.execute`: validate, reject duplicate names, build
the entity (whose constructor re-validates and may throw, the error being
wrapped into `InvalidAgentConfigError`), persist, and return it.  The
repository state is threaded explicitly and returned unchanged on every
rejection; `freshId`/`now` stand for the generated UUID and clock. -/
def createAgentExecute (config : AgentConfig) (freshId : String)
    (now : Nat) (repo : InMemoryAgentRepository) :
    Except CreateAgentError Agent × InMemoryAgentRepository :=
  match createAgentValidateConfig config with
  | .error e => (.error e, repo)
  | .ok _ =>
    match repo.findByName config.name with
    | some _ =>
      (.error (.invalidConfig
        ("Agent with name " ++ config.name ++ " already exists")), repo)
    | none =>
      match Agent.create config freshId true now with
      | .error msg => (.error (.invalidConfig msg), repo)
      | .ok agent => (.ok agent, repo.save agent)

/-! ## Multi-agent routing (`multi-agent.graph.ts`) -/

/-- A message as the routing code sees it: only its `content` is read,
and the routing path for string content is the one modelled (non-string
content goes through `JSON.stringify`). -/
structure GraphMessage where
  content : String
  deriving DecidableEq, Repr

/-- The slice of the LangGraph `AgentState` that `routeWork` reads:
the message list and the iteration counter (`state.iterations ?? 0`,
possibly absent). -/
structure MultiAgentState where
  messages : List GraphMessage
  iterations : Option Nat
  deriving DecidableEq, Repr

/-- The `MultiAgentGraph` configuration `routeWork` closes over: the
registered worker names in insertion order, and `maxIterations`
(constructor default 10). -/
structure MultiAgentGraph where
  workers : List String
  maxIterations : Nat := 10
  deriving DecidableEq, Repr

/-- TS `MultiAgentGraph.routeWork`: lowercase the last message's content
(`JSON.stringify('')`, i.e. a two-quote string, when there is no last
message), return `'end'` once `iterations ?? 0` has reached
`maxIterations`, otherwise the first registered worker whose lowercased
name occurs in the content, defaulting to `'end'`. -/
def MultiAgentGraph.routeWork (g : MultiAgentGraph)
    (state : MultiAgentState) : String :=
  let content :=
    strLower (match state.messages.getLast? with
      | some m => m.content
      | none => "\"\"")
  if g.maxIterations ≤ state.iterations.getD 0 then
    "end"
  else
    match g.workers.find? (fun w => strIncludes content (strLower w)) with
    | some w => w
    | none => "end"

/-! ## Stated invariants and concrete instances -/

/-- The invariant of the `Agent` entity: nonempty trimmed name, a present
type, and a nonempty LLM model name. -/
def AgentInvariant (a : Agent) : Prop :=
  (strTrim a.config.name) ≠ "" ∧ a.config.type ≠ none ∧
  ∃ l, a.config.llmConfig = some l ∧ l.modelName ≠ ""

/-- A valid baseline configuration used by concrete witnesses. -/
def cfgValid : AgentConfig :=
  { type := some .general
    name := "Test Agent"
    llmConfig := some { provider := .openai, modelName := "gpt-4" } }

/-- The rational one half, given in lowest terms so that comparisons on
it evaluate by kernel reduction. -/
def ratHalf : ℚ := ⟨1, 2, by decide, by decide⟩

/-- A configuration with valid name, type and model name whose
`maxIterations` is the JS number `0.5`. -/
def cfgHalf : AgentConfig :=
  { type := some .general
    name := "Half Agent"
    llmConfig := some { provider := .openai, modelName := "gpt-4" }
    maxIterations := some ratHalf }

/-- The agent `createAgentExecute cfgValid "agent-1" 0` constructs. -/
def agentW : Agent :=
  { id := "agent-1", config := cfgValid, isActive := true,
    createdAt := 0, updatedAt := 0 }

/-- A repository holding exactly `agentW`. -/
def repoW : InMemoryAgentRepository :=
  { agents := [("agent-1", agentW)] }

/-- A concrete tool that echoes its input and throws on `"boom"`. -/
def toolEcho : ToolDefinition :=
  { id := "tool-1", name := "echo", description := "Echo tool"
    schema := [("text", "string")]
    execute := fun s => if s = "boom" then .error "kaboom"
                        else .ok (s ++ "!") }

/-- A registry holding exactly `toolEcho`. -/
def regEcho : ToolRegistryService :=
  { tools := [("tool-1", toolEcho)], llmTools := [{ name := "echo" }] }

/-- A concrete multi-agent graph with two workers. -/
def graphW : MultiAgentGraph :=
  { workers := ["researcher", "coder"], maxIterations := 10 }

/-- A message whose content mentions the `coder` worker. -/
def msgW : GraphMessage := { content := "Please ask the CODER to go on" }

/-- A routing state below the iteration limit. -/
def stateW : MultiAgentState := { messages := [msgW], iterations := some 3 }

/-- A routing state at the iteration limit. -/
def stateMaxW : MultiAgentState :=
  { messages := [msgW], iterations := some 10 }

/-! ## Map lemmas -/

/-- Looking up the key just set yields the new value. -/
theorem mapLookup_mapSet_self {α : Type} (m : List (String × α))
    (k : String) (v : α) : mapLookup (mapSet m k v) k = some v := by
  induction m with
  | nil => simp [mapSet, mapLookup]
  | cons h t ih =>
    by_cases hk : h.1 = k
    · simp [mapSet, mapLookup, hk]
    · simp [mapSet, mapLookup, hk, ih]

/-- Deleting a key removes every binding for it. -/
theorem mapLookup_mapDelete_self {α : Type} (m : List (String × α))
    (k : String) : mapLookup (mapDelete m k) k = none := by
  induction m with
  | nil => rfl
  | cons h t ih =>
    by_cases hk : h.1 = k
    · simpa [mapDelete, hk] using ih
    · simpa [mapDelete, mapLookup, hk] using ih

/-- Fact: `mapHas` is definedness of `mapLookup`. -/
theorem mapHas_eq_isSome_mapLookup {α : Type} (m : List (String × α))
    (k : String) : mapHas m k = (mapLookup m k).isSome := by
  induction m with
  | nil => rfl
  | cons h t ih =>
    by_cases hk : h.1 = k <;> simp [mapHas, mapLookup, hk, ih]

/-- Deleting an absent key leaves the map unchanged. -/
theorem mapDelete_eq_self_of_lookup_none {α : Type}
    (m : List (String × α)) (k : String)
    (h : mapLookup m k = none) : mapDelete m k = m := by
  induction m with
  | nil => rfl
  | cons hd t ih =>
    by_cases hk : hd.1 = k
    · simp [mapLookup, hk] at h
    · simp only [mapLookup, hk, if_false, if_neg] at h
      simp [mapDelete, List.filter_cons, hk] at ih ⊢
      exact ih h

/-! ## Claim C1: session status transitions -/

/-- C1 counterexample: the claim says `complete()` called on a session
whose status is `failed` sets the status to `completed`; on the code,
`complete()` is guarded by `active ∨ paused` and leaves a failed session
failed. -/
theorem session_complete_from_failed_is_noop :
    (Session.complete
      { sessionId := "s1", agentId := "a1", createdAt := 0, updatedAt := 0,
        expiresAt := none, status := .failed, metadata := [] } 5).status
        = SessionStatusEnum.failed
    ∧ SessionStatusEnum.failed ≠ SessionStatusEnum.completed := by
  exact ⟨rfl, by decide⟩

/-- C1 (amended): `pause()` transitions to `paused` only from `active`,
`resume()` to `active` only from `paused`, and `complete()` to
`completed` only from `active` or `paused` (each leaving the status
unchanged otherwise), while `fail()` and `interrupt()` assign their
status unconditionally; in particular `complete()` on a failed session
leaves it failed. -/
theorem session_status_transitions (s : Session) (now : Nat)
    (reason : Option String) :
    (s.pause now).status =
      (if s.status = .active then .paused else s.status)
    ∧ (s.resume now).status =
      (if s.status = .paused then .active else s.status)
    ∧ (s.complete now).status =
      (if s.status = .active ∨ s.status = .paused then .completed
       else s.status)
    ∧ (s.fail reason now).status = .failed
    ∧ (s.interrupt reason now).status = .interrupted := by
  refine ⟨?_, ?_, ?_, rfl, rfl⟩
  · unfold Session.pause; split <;> simp_all
  · unfold Session.resume; split <;> simp_all
  · unfold Session.complete; split <;> simp_all

/-! ## Claim C2: unregister leaves the LLM tool list unchanged -/

/-- C2: after `register(toolDef)`, `unregister(toolDef.id)` returns
`true` and removes the definition from the id-keyed map, but leaves
`llmTools` unchanged (the name lookup used for list removal runs after
the map deletion and yields nothing), so `getToolsAsLLMTools()` still
contains an entry named `toolDef.name`. -/
theorem unregister_leaves_llm_tools (r : ToolRegistryService)
    (toolDef : ToolDefinition) :
    let r1 := r.register toolDef
    let res := r1.unregister toolDef.id
    res.1 = true
    ∧ mapLookup res.2.tools toolDef.id = none
    ∧ res.2.llmTools = r1.llmTools
    ∧ (res.2.getToolsAsLLMTools.any
        (fun t => t.name = toolDef.name)) = true := by
  intro r1 res
  have hhas : mapHas r1.tools toolDef.id = true := by
    show mapHas (mapSet r.tools toolDef.id toolDef) toolDef.id = true
    rw [mapHas_eq_isSome_mapLookup, mapLookup_mapSet_self]
    rfl
  have hres : res =
      (true,
       ({ tools := mapDelete r1.tools toolDef.id
          llmTools := r1.llmTools } : ToolRegistryService)) := by
    show r1.unregister toolDef.id = _
    unfold ToolRegistryService.unregister
    rw [hhas]
    simp [mapLookup_mapDelete_self]
  refine ⟨by rw [hres], ?_, by rw [hres], ?_⟩
  · rw [hres]
    exact mapLookup_mapDelete_self _ _
  · rw [hres]
    show ((r.llmTools ++ [({ name := toolDef.name } : LLMTool)]).any
      (fun t => t.name = toolDef.name)) = true
    simp [List.any_append]

/-! ## Validation lemmas -/

/-- A config that passes `Agent.validateConfig` has a nonempty trimmed
name, a present type, and a nonempty model name. -/
theorem validateConfig_ok (c : AgentConfig)
    (h : Agent.validateConfig c = .ok ()) :
    (strTrim c.name) ≠ "" ∧ c.type ≠ none ∧
    ∃ l, c.llmConfig = some l ∧ l.modelName ≠ "" := by
  unfold Agent.validateConfig at h
  split_ifs at h with h1 h2 h3 h4 h5
  push_neg at h1 h3
  refine ⟨?_, h2, ?_⟩
  · intro he
    exact h1.2 (by rw [he]; rfl)
  · cases hl : c.llmConfig with
    | none => exact absurd hl h3.1
    | some l =>
      refine ⟨l, rfl, ?_⟩
      have := h3.2
      rw [hl] at this
      simpa using this

/-- Successful construction means validation passed and the entity holds
exactly the given data. -/
theorem Agent.create_ok (c : AgentConfig) (id : String) (act : Bool)
    (now : Nat) (a : Agent) (h : Agent.create c id act now = .ok a) :
    Agent.validateConfig c = .ok () ∧
    a = { id := id, config := c, isActive := act,
          createdAt := now, updatedAt := now } := by
  unfold Agent.create at h
  cases hv : Agent.validateConfig c with
  | error e => rw [hv] at h; exact Except.noConfusion h
  | ok u =>
    cases u
    rw [hv] at h
    injection h with h'
    exact ⟨rfl, h'.symm⟩

/-- Successful `updateConfig` means the merged config passed validation
and is the one committed. -/
theorem Agent.updateConfig_ok (a : Agent) (p : AgentConfigUpdate)
    (now : Nat) (a' : Agent) (h : Agent.updateConfig a p now = .ok a') :
    Agent.validateConfig (mergeConfig a.config p) = .ok () ∧
    a' = { a with config := mergeConfig a.config p, updatedAt := now } := by
  unfold Agent.updateConfig at h
  cases hv : Agent.validateConfig (mergeConfig a.config p) with
  | error e => rw [hv] at h; exact Except.noConfusion h
  | ok u =>
    cases u
    rw [hv] at h
    injection h with h'
    exact ⟨rfl, h'.symm⟩

/-! ## Claim C7: the Agent entity invariant -/

/-- C7: every `Agent` produced by the constructor, and every `Agent`
produced by an `updateConfig` call that returns normally, satisfies the
invariant (both paths validate before committing, throwing otherwise). -/
theorem agent_invariant_preserved (config : AgentConfig) (id : String)
    (act : Bool) (now now' : Nat) (p : AgentConfigUpdate) (a a' : Agent) :
    (Agent.create config id act now = .ok a → AgentInvariant a)
    ∧ (Agent.updateConfig a p now' = .ok a' → AgentInvariant a') := by
  constructor
  · intro h
    obtain ⟨hv, ha⟩ := Agent.create_ok config id act now a h
    subst ha
    exact validateConfig_ok config hv
  · intro h
    obtain ⟨hv, ha⟩ := Agent.updateConfig_ok a p now' a' h
    subst ha
    exact validateConfig_ok (mergeConfig a.config p) hv

/-- Witness for C7: a concretely constructed agent and the result of a
concrete `updateConfig` call both satisfy the invariant. -/
theorem agent_invariant_preserved_witness :
    AgentInvariant
      { id := "agent-1", config := cfgValid, isActive := true,
        createdAt := 0, updatedAt := 0 }
    ∧ AgentInvariant
      { id := "agent-1",
        config := mergeConfig cfgValid { maxIterations := some 20 },
        isActive := true, createdAt := 0, updatedAt := 3 } := by
  constructor
  · exact (agent_invariant_preserved cfgValid "agent-1" true 0 3 {}
      { id := "agent-1", config := cfgValid, isActive := true,
        createdAt := 0, updatedAt := 0 }
      { id := "agent-1", config := cfgValid, isActive := true,
        createdAt := 0, updatedAt := 0 }).1 rfl
  · exact (agent_invariant_preserved cfgValid "agent-1" true 0 3
      { maxIterations := some 20 }
      { id := "agent-1", config := cfgValid, isActive := true,
        createdAt := 0, updatedAt := 0 }
      { id := "agent-1",
        config := mergeConfig cfgValid { maxIterations := some 20 },
        isActive := true, createdAt := 0, updatedAt := 3 }).2 rfl

/-! ## Claim C10: the maxIterations guard -/

/-- Fact: `ratHalf` is the JS number `0.5`. -/
theorem ratHalf_eq : ratHalf = 1 / 2 := by
  rw [ratHalf]
  rw [Rat.mk'_eq_divInt, Rat.divInt_eq_div]
  norm_num

/-- C10 counterexample: the guard
`maxIterations && maxIterations > 0 && maxIterations < 1` is satisfiable
over JS numbers — with `maxIterations = 0.5` and valid name, type and
model name, construction throws "Max iterations must be greater than 0",
so the branch is reachable and construction does not succeed for every
`maxIterations` value. -/
theorem maxIterations_guard_reachable :
    ((strTrim cfgHalf.name) ≠ "" ∧ cfgHalf.type ≠ none ∧
      (cfgHalf.llmConfig.map LLMModelConfig.modelName).getD "" ≠ "")
    ∧ cfgHalf.maxIterations = some (1 / 2)
    ∧ Agent.create cfgHalf "a1" true 0 =
        .error "Max iterations must be greater than 0" := by
  refine ⟨by decide, ?_, by rfl⟩
  rw [show cfgHalf.maxIterations = some ratHalf from rfl, ratHalf_eq]

/-- C10 (amended): the guard is satisfiable only by fractional values
strictly between 0 and 1; for every configuration with valid name, type
and model name whose `maxIterations` is absent or an integer (zero and
negative included) and whose `timeoutMs` is absent or non-negative,
construction succeeds. -/
theorem create_succeeds_for_integer_maxIterations (config : AgentConfig)
    (id : String) (act : Bool) (now : Nat)
    (hname : (strTrim config.name).length ≠ 0)
    (htype : config.type ≠ none)
    (hllm : ∃ l, config.llmConfig = some l ∧ l.modelName ≠ "")
    (hmi : config.maxIterations = none ∨
      ∃ n : ℤ, config.maxIterations = some (n : ℚ))
    (htm : config.timeoutMs = none ∨
      ∃ t : ℚ, config.timeoutMs = some t ∧ 0 ≤ t) :
    ∃ a, Agent.create config id act now = .ok a := by
  obtain ⟨l, hl, hlname⟩ := hllm
  have hvalid : Agent.validateConfig config = .ok () := by
    unfold Agent.validateConfig
    rw [if_neg, if_neg, if_neg, if_neg, if_neg]
    · rcases htm with htm | ⟨t, htm, ht⟩
      · simp [htm]
      · rw [htm]
        simp only [decide_eq_true_eq]
        rintro ⟨hne, hle⟩
        exact hne (le_antisymm hle ht)
    · rcases hmi with hmi | ⟨n, hmi⟩
      · simp [hmi]
      · rw [hmi]
        simp only [decide_eq_true_eq]
        rintro ⟨-, hpos, hlt⟩
        have h1 : (0 : ℤ) < n := by exact_mod_cast hpos
        have h2 : n < 1 := by exact_mod_cast hlt
        omega
    · rw [hl]
      simpa using hlname
    · exact htype
    · rintro (hn | hn)
      · exact hname (by rw [hn]; rfl)
      · exact hname hn
  exact ⟨_, by unfold Agent.create; rw [hvalid]⟩

/-- Witness for the amended C10: a concrete configuration with integer
`maxIterations = 5` and `timeoutMs = 60000` constructs successfully. -/
theorem create_succeeds_for_integer_maxIterations_witness :
    ∃ a, Agent.create
      { type := some .general
        name := "Int Agent"
        llmConfig := some { provider := .openai, modelName := "gpt-4" }
        maxIterations := some ((5 : ℤ) : ℚ)
        timeoutMs := some 60000 } "a2" true 0 = .ok a :=
  create_succeeds_for_integer_maxIterations _ "a2" true 0
    (by decide) (by decide) ⟨_, rfl, by decide⟩
    (Or.inr ⟨5, rfl⟩) (Or.inr ⟨60000, rfl, by norm_num⟩)

/-! ## Claim C3: CreateAgentUseCase rejections -/

/-- A config that passes the use-case validation fails none of its
checks. -/
theorem createAgentValidateConfig_ok (c : AgentConfig)
    (h : createAgentValidateConfig c = .ok ()) :
    c.name ≠ "" ∧ (strTrim c.name).length ≠ 0 ∧ c.type ≠ none ∧
    c.llmConfig ≠ none ∧
    (c.llmConfig.map LLMModelConfig.modelName).getD "" ≠ "" := by
  unfold createAgentValidateConfig at h
  split_ifs at h with h1 h2 h3 h4
  push_neg at h1
  exact ⟨h1.1, h1.2, h2, h3, h4⟩

/-- C3: `CreateAgentUseCase.execute` returns an `InvalidAgentConfigError`
whenever the name is missing or blank, the type is missing, the LLM
config or its model name is missing, or an agent with the same name is
already stored — and in every such case the repository is returned
unchanged, so nothing is persisted. -/
theorem createAgent_rejects_invalid (config : AgentConfig)
    (freshId : String) (now : Nat) (repo : InMemoryAgentRepository)
    (h : config.name = "" ∨ (strTrim config.name).length = 0 ∨
      config.type = none ∨ config.llmConfig = none ∨
      (config.llmConfig.map LLMModelConfig.modelName).getD "" = "" ∨
      ∃ p ∈ repo.agents, p.2.config.name = config.name) :
    ∃ msg, createAgentExecute config freshId now repo =
      (.error (.invalidConfig msg), repo) := by
  unfold createAgentExecute
  cases hv : createAgentValidateConfig config with
  | error e =>
    cases e with
    | invalidConfig m => exact ⟨m, rfl⟩
  | ok u =>
    cases u
    cases hf : repo.findByName config.name with
    | some b => exact ⟨_, rfl⟩
    | none =>
      exfalso
      obtain ⟨hn, ht, hty, hllm, hmodel⟩ :=
        createAgentValidateConfig_ok config hv
      rcases h with h | h | h | h | h | ⟨p, hp, hpname⟩
      · exact hn h
      · exact ht h
      · exact hty h
      · exact hllm h
      · exact hmodel h
      · unfold InMemoryAgentRepository.findByName at hf
        rw [List.find?_eq_none] at hf
        exact absurd (by simpa using hpname)
          (hf p.2 (List.mem_map_of_mem Prod.snd hp))

/-- Witness for C3: a blank-name configuration and a duplicate-name
configuration are both rejected against concrete repositories, leaving
them unchanged. -/
theorem createAgent_rejects_invalid_witness :
    (∃ msg, createAgentExecute
      { type := some .general, name := ""
        llmConfig := some { provider := .openai, modelName := "gpt-4" } }
      "id-1" 0 { agents := [] } =
      (.error (.invalidConfig msg), { agents := [] }))
    ∧ (∃ msg, createAgentExecute cfgValid "id-2" 0 repoW =
      (.error (.invalidConfig msg), repoW)) :=
  ⟨createAgent_rejects_invalid _ "id-1" 0 _ (Or.inl rfl),
   createAgent_rejects_invalid cfgValid "id-2" 0 repoW
    (Or.inr (Or.inr (Or.inr (Or.inr (Or.inr
      ⟨("agent-1", agentW), by simp [repoW], rfl⟩)))))⟩

/-! ## Claim C8: create-then-read returns the same agent -/

/-- C8: when `CreateAgentUseCase.execute` returns an agent, `findById` on
the resulting repository state at that agent's id returns the very same
agent (same id, same configuration, same active flag). -/
theorem create_then_findById (config : AgentConfig) (freshId : String)
    (now : Nat) (repo repo' : InMemoryAgentRepository) (a : Agent)
    (h : createAgentExecute config freshId now repo = (.ok a, repo')) :
    repo'.findById a.id = some a := by
  unfold createAgentExecute at h
  cases hv : createAgentValidateConfig config with
  | error e =>
    rw [hv] at h
    injection h with h1 h2
    exact Except.noConfusion h1
  | ok u =>
    cases u
    rw [hv] at h
    cases hf : repo.findByName config.name with
    | some b =>
      rw [hf] at h
      injection h with h1 h2
      exact Except.noConfusion h1
    | none =>
      rw [hf] at h
      cases hc : Agent.create config freshId true now with
      | error m =>
        rw [hc] at h
        injection h with h1 h2
        exact Except.noConfusion h1
      | ok agent =>
        rw [hc] at h
        injection h with h1 h2
        injection h1 with h1
        subst h1
        subst h2
        unfold InMemoryAgentRepository.save InMemoryAgentRepository.findById
        exact mapLookup_mapSet_self _ _ _

/-- Witness for C8: the concretely created agent is read back. -/
theorem create_then_findById_witness :
    InMemoryAgentRepository.findById repoW agentW.id = some agentW :=
  create_then_findById cfgValid "agent-1" 0 { agents := [] } repoW agentW
    rfl

/-! ## Claim C4: pagination -/

/-- Slicing from `skip` to `skip + take` is drop-then-take. -/
theorem jsSlice_skip_take {α : Type} (l : List α) (s t : Nat) :
    jsSlice l s (s + t) = (l.drop s).take t := by
  simp [jsSlice]

/-- C4 counterexample: with a cursor whose fields are present but with
`take = 0`, `findAll` does not return the empty slice from `skip` to
`skip + take` the claim prescribes — the `||` defaulting replaces the
falsy `0` by `10`, returning one stored agent (and reporting
`take = 10`). -/
theorem findAll_take_zero_defaults :
    (InMemoryAgentRepository.findAll repoW
      (some { skip := 0, take := 0 })).data = [agentW]
    ∧ ([agentW] : List Agent) ≠
        jsSlice (repoW.agents.map Prod.snd) 0 (0 + 0)
    ∧ (InMemoryAgentRepository.findAll repoW
        (some { skip := 0, take := 0 })).take = 10 := by
  refine ⟨rfl, ?_, rfl⟩
  simp [jsSlice]

/-- C4 (amended): `findAll` and `findByAgentId` return the slice of the
stored (respectively agent-matching) items from the effective skip to
effective skip + effective take, and report the full count plus the
effective values — where the effective skip/take are the cursor's fields,
defaulted to 0 and 10 respectively not only when the cursor or the field
is absent but also when the field is `0` (the code defaults with `||`,
which treats `0` as absent). -/
theorem pagination_respects_skip_take (arepo : InMemoryAgentRepository)
    (srepo : InMemorySessionRepository) (agentId : String)
    (cursor : Option PageCursor) :
    (arepo.findAll cursor =
      { data := ((arepo.agents.map Prod.snd).drop
          (jsOrNat (cursor.map PageCursor.skip) 0)).take
          (jsOrNat (cursor.map PageCursor.take) 10)
        total := (arepo.agents.map Prod.snd).length
        skip := jsOrNat (cursor.map PageCursor.skip) 0
        take := jsOrNat (cursor.map PageCursor.take) 10 })
    ∧ (srepo.findByAgentId agentId cursor =
      { data := (((srepo.sessions.map Prod.snd).filter
          (fun s => s.agentId = agentId)).drop
          (jsOrNat (cursor.map PageCursor.skip) 0)).take
          (jsOrNat (cursor.map PageCursor.take) 10)
        total := ((srepo.sessions.map Prod.snd).filter
          (fun s => s.agentId = agentId)).length
        skip := jsOrNat (cursor.map PageCursor.skip) 0
        take := jsOrNat (cursor.map PageCursor.take) 10 }) := by
  constructor
  · simp only [InMemoryAgentRepository.findAll, jsSlice_skip_take]
  · simp only [InMemorySessionRepository.findByAgentId, jsSlice_skip_take]

/-! ## Claim C9: deleting an absent key -/

/-- C9: deleting an identifier that is not stored resolves without error
and leaves both repositories' maps entirely unchanged. -/
theorem delete_absent_is_noop (arepo : InMemoryAgentRepository)
    (srepo : InMemorySessionRepository) (agentId sessionId : String)
    (ha : mapLookup arepo.agents agentId = none)
    (hs : mapLookup srepo.sessions sessionId = none) :
    arepo.delete agentId = arepo ∧ srepo.delete sessionId = srepo := by
  constructor
  · unfold InMemoryAgentRepository.delete
    rw [mapDelete_eq_self_of_lookup_none _ _ ha]
  · unfold InMemorySessionRepository.delete
    rw [mapDelete_eq_self_of_lookup_none _ _ hs]

/-- Witness for C9: deleting a missing id from a nonempty agent
repository and an empty session repository changes nothing. -/
theorem delete_absent_is_noop_witness :
    InMemoryAgentRepository.delete repoW "missing" = repoW
    ∧ InMemorySessionRepository.delete { sessions := [] } "s9" =
        { sessions := [] } :=
  delete_absent_is_noop repoW { sessions := [] } "missing" "s9" rfl rfl

/-! ## Claim C5: tool execution -/

/-- C5: `execute(toolId, input)` returns the stored function's value when
it returns normally, and fails with a `ToolExecutionError` in exactly two
cases — no tool with that id is registered (reason "Tool not found"), or
the stored function throws (the error carrying the tool's name and the
thrown message). -/
theorem toolRegistry_execute_spec (r : ToolRegistryService)
    (toolId input : String) :
    (r.getTool toolId = none →
      r.execute toolId input =
        .error { toolName := toolId, reason := "Tool not found" })
    ∧ (∀ td, r.getTool toolId = some td →
        (∀ v, td.execute input = .ok v →
          r.execute toolId input = .ok v)
        ∧ (∀ e, td.execute input = .error e →
          r.execute toolId input =
            .error { toolName := td.name, reason := e }))
    ∧ (∀ err, r.execute toolId input = .error err →
        r.getTool toolId = none ∨
        ∃ td e, r.getTool toolId = some td ∧
          td.execute input = .error e) := by
  refine ⟨?_, ?_, ?_⟩
  · intro hnone
    unfold ToolRegistryService.execute
    rw [hnone]
  · intro td htd
    constructor
    · intro v hv
      simp only [ToolRegistryService.execute, htd, hv]
    · intro e he
      simp only [ToolRegistryService.execute, htd, he]
  · intro err herr
    unfold ToolRegistryService.execute at herr
    cases htd : r.getTool toolId with
    | none => exact Or.inl rfl
    | some td =>
      cases he : td.execute input with
      | error e => exact Or.inr ⟨td, e, rfl, he⟩
      | ok v =>
        simp only [htd, he] at herr
        exact Except.noConfusion herr

/-- Witness for C5: on the concrete registry the normal return, the
wrapped throw, and the missing-tool failure all behave as stated. -/
theorem toolRegistry_execute_spec_witness :
    regEcho.execute "tool-1" "hi" = .ok "hi!"
    ∧ regEcho.execute "tool-1" "boom" =
        .error { toolName := "echo", reason := "kaboom" }
    ∧ regEcho.execute "missing" "x" =
        .error { toolName := "missing", reason := "Tool not found" } :=
  ⟨((toolRegistry_execute_spec regEcho "tool-1" "hi").2.1 toolEcho
      rfl).1 "hi!" rfl,
   ((toolRegistry_execute_spec regEcho "tool-1" "boom").2.1 toolEcho
      rfl).2 "kaboom" rfl,
   (toolRegistry_execute_spec regEcho "missing" "x").1 rfl⟩

/-! ## Claim C6: multi-agent routing -/

/-- C6: `routeWork` returns `'end'` once the iteration counter
(defaulting to 0) has reached `maxIterations`; below the limit it returns
the first registered worker whose lowercased name occurs as a substring
of the lowercased content of the last message, and `'end'` when no
worker matches. -/
theorem routeWork_spec (g : MultiAgentGraph) (st : MultiAgentState)
    (m : GraphMessage) (hm : st.messages.getLast? = some m) :
    (g.maxIterations ≤ st.iterations.getD 0 → g.routeWork st = "end")
    ∧ (st.iterations.getD 0 < g.maxIterations →
        g.routeWork st =
          (g.workers.find? (fun w =>
            strIncludes (strLower m.content) (strLower w))).getD
            "end") := by
  unfold MultiAgentGraph.routeWork
  rw [hm]
  constructor
  · intro hle
    rw [if_pos hle]
  · intro hlt
    rw [if_neg (by omega)]
    cases hf : g.workers.find? (fun w =>
        strIncludes (strLower m.content) (strLower w)) with
    | none => rfl
    | some w => rfl

/-- Witness for C6: below the limit the message mentioning `CODER`
routes to worker `coder`; at the limit routing returns `end`. -/
theorem routeWork_spec_witness :
    graphW.routeWork stateW = "coder"
    ∧ graphW.routeWork stateMaxW = "end" :=
  ⟨((routeWork_spec graphW stateW msgW rfl).2 (by decide)).trans rfl,
   (routeWork_spec graphW stateMaxW msgW rfl).1 (by decide)⟩

end AgentTemplate
